import Mathlib

/-!
Verification of the ConverterApp repository (src/converter.py).

The development shallowly embeds the three conversion functions of
`converter.py` — `convert_pdf_to_images`, `images_to_pdf` and
`images_to_pdf_from_files` — over an explicit filesystem state.

Modelling conventions:
* A filesystem path is a list of components (`os.path.abspath` is modelled
  as the identity, i.e. all paths are taken already absolute and normalised;
  `os.path.join dir name` is `dir ++ [name]`, `os.path.dirname` is
  `List.dropLast`).
* A Pillow image is modelled by its mode string, its size, the presence of a
  "transparency" entry in its `info` dictionary, and its pixel buffer, where
  each pixel is recorded in resolved RGBA form (for palette images the
  palette lookup is already applied, with alpha 0 on a transparent palette
  index).
* External library calls (`PIL.Image.open`, `Image.new`, `Image.paste`,
  `Image.convert`, `Image.save`, `pdf2image.convert_from_path`) are modelled
  by executable Lean functions following Pillow's documented behaviour,
  including Pillow's `MULDIV255` rounding for masked paste.
* Python exceptions become an explicit error type; each embedded function
  returns the Python result (or the raised error) together with the
  filesystem state after the call, so that partial side effects are visible.
-/

namespace ConverterApp

/-- A pixel in resolved RGBA form (each channel `0..255`). -/
structure Pixel where
  r : Nat
  g : Nat
  b : Nat
  a : Nat
deriving DecidableEq

/-- Model of a decoded `PIL.Image.Image`: mode string (`"RGB"`, `"RGBA"`,
`"LA"`, `"P"`, ...), size, whether `"transparency" in im.info`, and the pixel
buffer in resolved RGBA form. -/
structure PILImage where
  mode : String
  width : Nat
  height : Nat
  transparencyInfo : Bool
  data : List Pixel
deriving DecidableEq

instance : Inhabited PILImage :=
  ⟨{ mode := "RGB", width := 0, height := 0, transparencyInfo := false, data := [] }⟩

/-- A filesystem path as a list of components (absolute, normalised). -/
abbrev Path := List String

/-- Rendering of a path for error messages (models the path string). -/
def pathStr (p : Path) : String :=
  String.intercalate "/" p

/-- Content of a file: a decodable image, a PDF (its rasterized pages, as
`pdf2image` would produce them), or bytes neither library can decode. -/
inductive Content where
  | image (im : PILImage)
  | pdf (pages : List PILImage)
  | raw
deriving DecidableEq

/-- Filesystem state: an association of file paths to contents (the head of
the list shadows later entries, so a prepend overwrites) plus the set of
existing directories. -/
structure FS where
  files : List (Path × Content)
  dirs : List Path
deriving DecidableEq

/-- `os.path.isfile`. -/
def FS.lookupFile (fs : FS) (p : Path) : Option Content :=
  fs.files.lookup p

/-- `os.path.isfile p` — `p` names an existing regular file. -/
def FS.isFile (fs : FS) (p : Path) : Bool :=
  (fs.lookupFile p).isSome

/-- `os.path.isdir p` — `p` names an existing directory. -/
def FS.isDir (fs : FS) (p : Path) : Bool :=
  fs.dirs.contains p

/-- Every path that names an existing entry (file or directory). -/
def FS.entryPaths (fs : FS) : List Path :=
  fs.files.map Prod.fst ++ fs.dirs

/-- `os.listdir d`: the names of the entries (files and subdirectories alike)
directly inside directory `d`. -/
def FS.listdir (fs : FS) (d : Path) : List String :=
  fs.entryPaths.filterMap (fun p => if p.dropLast = d then p.getLast? else none)

/-- The non-empty ancestors of a path, shortest first. -/
def ancestorDirs (p : Path) : List Path :=
  (List.range p.length).map (fun i => p.take (i + 1))

/-- `os.makedirs p (exist_ok := True)`: create `p` and all missing parents. -/
def FS.makedirs (fs : FS) (p : Path) : FS :=
  { fs with dirs := fs.dirs ++ ancestorDirs p }

/-- Write (create or overwrite) the file at `p`: the new binding shadows any
older one, so `lookupFile` returns the most recent write. -/
def FS.writeFile (fs : FS) (p : Path) (c : Content) : FS :=
  { fs with files := (p, c) :: fs.files }

/-- Python exceptions raised by the converters, by class. -/
inductive PyError where
  | fileNotFound (msg : String)
  | runtimeError (msg : String)
  | unidentifiedImage (msg : String)
  | isADirectory (msg : String)
  | indexError (msg : String)
deriving DecidableEq

deriving instance DecidableEq for Except

/-- Whether an error is of the NotFound class (`FileNotFoundError`). -/
def PyError.notFoundClass : PyError → Bool
  | .fileNotFound _ => true
  | _ => false

/-- `str.lower` on one character (ASCII case mapping, which covers the
extension strings and filenames the program deals with). -/
def charLower (c : Char) : Char :=
  if 65 ≤ c.toNat ∧ c.toNat ≤ 90 then Char.ofNat (c.toNat + 32) else c

/-- `str.lower`. -/
def lowerStr (s : String) : String :=
  ⟨s.data.map charLower⟩

/-- `s.endswith t` for plain strings: `t` is a suffix of `s`. -/
def strEndsWith (s t : String) : Bool :=
  t.data.isSuffixOf s.data

/-- Line 58's filter predicate: `f.lower().endswith(tuple(exts))`.  Note that
only the filename is lowercased; the extension strings are compared verbatim. -/
def matchesExt (f : String) (exts : List String) : Bool :=
  exts.any (fun e => strEndsWith (lowerStr f) e)

/-- Line 58: `[f for f in os.listdir(images_dir) if f.lower().endswith(tuple(exts))]`. -/
def selectFiles (fs : FS) (images_dir : Path) (exts : List String) : List String :=
  (fs.listdir images_dir).filter (fun f => matchesExt f exts)

/-- Python's `<` on strings: lexicographic comparison of the code-point
sequences. -/
def charListLt : List Char → List Char → Bool
  | _, [] => false
  | [], _ :: _ => true
  | a :: as, b :: bs =>
    if a.toNat < b.toNat then true
    else if b.toNat < a.toNat then false
    else charListLt as bs

/-- Python's `s < t` on strings. -/
def pyStrLt (s t : String) : Bool :=
  charListLt s.data t.data

/-- Python's `s <= t` on strings (`¬ t < s`, as `<` is a strict total order). -/
abbrev pyLe (s t : String) : Prop :=
  pyStrLt t s = false

/-- Line 62: `files.sort()` — ascending plain string comparison (Python sorts
strings by code points).  Python's sort is stable, and equal strings are
identical, so any correct sort produces the same list. -/
def sortFiles (files : List String) : List String :=
  List.insertionSort pyLe files

/-- Pillow's `MULDIV255(a, b)` rounding primitive:
`tmp = a*b + 128; ((tmp >> 8) + tmp) >> 8`, an approximation of `a*b/255`. -/
def muldiv255 (x y : Nat) : Nat :=
  let t := x * y + 128
  (t / 256 + t) / 256

/-- Pillow's per-channel blend for a masked paste:
`BLEND(mask, bg, src) = MULDIV255(bg, 255 - mask) + MULDIV255(src, mask)`. -/
def blendPx (bg src mask : Nat) : Nat :=
  muldiv255 bg (255 - mask) + muldiv255 src mask

/-- Line 68: `Image.new("RGB", im.size, (255, 255, 255))` — an opaque white
RGB image of the same size. -/
def whiteBG (im : PILImage) : PILImage :=
  { mode := "RGB", width := im.width, height := im.height,
    transparencyInfo := false,
    data := List.replicate (im.width * im.height) ⟨255, 255, 255, 255⟩ }

/-- Line 70: `bg.paste(im, mask=im.split()[3])` — alpha-composite `im` over
`bg` using `im`'s alpha band as the mask; the result keeps `bg`'s mode
(`"RGB"`), hence is fully opaque. -/
def pasteMask (bg im : PILImage) : PILImage :=
  { bg with
    data :=
      (List.zipWith
        (fun bgc imc =>
          ⟨blendPx bgc.r imc.r imc.a, blendPx bgc.g imc.g imc.a,
            blendPx bgc.b imc.b imc.a, bgc.a⟩)
        bg.data im.data : List Pixel) }

/-- `im.convert("RGB")` (lines 72/75 behaviour): Pillow converts to a plain
three-channel image — the alpha channel is dropped and palette entries are
resolved; in the resolved-RGBA pixel model this keeps each pixel's colour and
forces alpha to 255. -/
def convertRGB (im : PILImage) : PILImage :=
  { mode := "RGB", width := im.width, height := im.height,
    transparencyInfo := false,
    data := im.data.map (fun c => ⟨c.r, c.g, c.b, 255⟩) }

/-- Line 72: `bg.paste(im)` — a maskless paste at the origin: Pillow first
converts `im` to `bg`'s mode (`"RGB"`, dropping alpha / resolving the
palette) and then copies it over `bg`, covering it entirely since the sizes
are equal. -/
def pasteFull (bg im : PILImage) : PILImage :=
  { bg with data := (convertRGB im).data }

/-- Lines 67–75 (and identically 94–102): normalisation of one decoded image
before it is appended to the output PDF. -/
def normalizeImage (im : PILImage) : PILImage :=
  if im.mode = "RGBA" ∨ im.mode = "LA" ∨ (im.mode = "P" ∧ im.transparencyInfo) then
    let bg := whiteBG im
    if im.mode = "RGBA" then pasteMask bg im
    else pasteFull bg im
  else convertRGB im

/-- `PIL.Image.open path`: raises `FileNotFoundError` for a missing path,
`IsADirectoryError` for a directory, and `UnidentifiedImageError` for bytes
Pillow cannot decode (PDF bytes included). -/
def FS.openImage (fs : FS) (p : Path) : Except PyError PILImage :=
  match fs.lookupFile p with
  | some (.image im) => .ok im
  | some _ => .error (.unidentifiedImage ("cannot identify image file " ++ pathStr p))
  | none =>
    if fs.isDir p then .error (.isADirectory ("Is a directory: " ++ pathStr p))
    else .error (.fileNotFound ("No such file or directory: " ++ pathStr p))

/-- The decode-and-normalise loop (lines 63–76 and identically 91–103 in the
source): open each path in order, normalise it, and collect the results; the
first failure aborts the whole loop. -/
def loadImages (fs : FS) (ps : List Path) : Except PyError (List PILImage) :=
  match ps with
  | [] => .ok []
  | p :: rest => do
    let im ← fs.openImage p
    let ims ← loadImages fs rest
    pure (normalizeImage im :: ims)

/-- Lines 78–81 (and identically 105–108): take the output's parent directory
(`os.path.dirname`) and create it if it is non-empty and absent. -/
def prepareOutput (fs : FS) (output_pdf : Path) : FS :=
  let output_dir := output_pdf.dropLast
  if output_dir ≠ [] ∧ fs.isDir output_dir = false then fs.makedirs output_dir
  else fs

/-- Lines 78–85 (and identically 105–112): create the parent directory if
needed, then `first, rest = imgs[0], imgs[1:]` and
`first.save(output_pdf, "PDF", save_all=True, append_images=rest)`, which
writes a PDF whose page sequence is `first :: rest`, i.e. `imgs`.  On an
empty list Python's `imgs[0]` raises `IndexError` (after the `makedirs`). -/
def saveAsPdf (fs : FS) (output_pdf : Path) (imgs : List PILImage) :
    Except PyError Path × FS :=
  let fs1 := prepareOutput fs output_pdf
  match imgs with
  | [] => (.error (.indexError "list index out of range"), fs1)
  | first :: rest => (.ok output_pdf, fs1.writeFile output_pdf (.pdf (first :: rest)))

/-- Lines 53–85: `images_to_pdf(images_dir, output_pdf, exts)`. -/
def images_to_pdf (images_dir output_pdf : Path) (exts : List String) (fs : FS) :
    Except PyError Path × FS :=
  if fs.isDir images_dir = false then
    (.error (.fileNotFound ("Input directory not found: " ++ pathStr images_dir)), fs)
  else
    let files := selectFiles fs images_dir exts
    if files = [] then
      (.error (.fileNotFound ("No images found in " ++ pathStr images_dir ++
        " with extensions " ++ String.intercalate ", " exts)), fs)
    else
      match loadImages fs ((sortFiles files).map (fun f => images_dir ++ [f])) with
      | .error e => (.error e, fs)
      | .ok imgs => saveAsPdf fs output_pdf imgs

/-- Lines 88–112: `images_to_pdf_from_files(file_paths, output_pdf)`. -/
def images_to_pdf_from_files (file_paths : List Path) (output_pdf : Path) (fs : FS) :
    Except PyError Path × FS :=
  if file_paths = [] then
    (.error (.fileNotFound "No image files provided"), fs)
  else
    match loadImages fs file_paths with
    | .error e => (.error e, fs)
    | .ok imgs => saveAsPdf fs output_pdf imgs

/-- The little-endian decimal digits of `n` (each `< 10`, at least one),
computed with explicit fuel (`n < fuel` suffices, since `n / 10 < n` for
`n ≥ 10`). -/
def toDigitsRevAux : Nat → Nat → List Nat
  | _, 0 => []
  | n, fuel + 1 => if n < 10 then [n] else n % 10 :: toDigitsRevAux (n / 10) fuel

/-- The little-endian decimal digits of `n`. -/
def toDigitsRev (n : Nat) : List Nat :=
  toDigitsRevAux n (n + 1)

/-- The decimal digit character for `d` (`0 ↦ '0'`, ..., `9 ↦ '9'`). -/
def charOfDigit (d : Nat) : Char :=
  Char.ofNat (48 + d)

/-- The decimal string for `n`, as Python's `str`/f-string formatting
produces it (most significant digit first, no padding, no sign). -/
def decimalStr (n : Nat) : String :=
  ⟨(toDigitsRev n).reverse.map charOfDigit⟩

/-- Line 47: `f"page_{counter}.png"` — 1-indexed, no zero-padding. -/
def pageName (counter : Nat) : String :=
  "page_" ++ decimalStr counter ++ ".png"

/-- Lines 45–49: the save loop of `convert_pdf_to_images` — write each page
as `page_<counter>.png` into the output directory, incrementing the counter;
returns the final state and the final counter value. -/
def savePagesLoop (fs : FS) (output_dir : Path) (pages : List PILImage)
    (counter : Nat) : FS × Nat :=
  match pages with
  | [] => (fs, counter)
  | page :: rest =>
    savePagesLoop (fs.writeFile (output_dir ++ [pageName counter]) (.image page))
      output_dir rest (counter + 1)

/-- Lines 34–50: `convert_pdf_to_images(pdf_path, poppler_path, output_dir)`.
`pdf2imageInstalled` models whether the module-level `from pdf2image import
convert_from_path` succeeded (`convert_from_path is None` when it did not);
`poppler_path` is forwarded to the rasterizer and does not otherwise affect
the control flow modelled here.  A call on an existing file whose bytes are
not a PDF fails inside `convert_from_path`, modelled as a non-NotFound
runtime error. -/
def convert_pdf_to_images (pdf_path : Path) (poppler_path : Option Path)
    (output_dir : Path) (pdf2imageInstalled : Bool) (fs : FS) :
    Except PyError Nat × FS :=
  if fs.isFile pdf_path = false then
    (.error (.fileNotFound ("PDF not found: " ++ pathStr pdf_path)), fs)
  else
    let fs1 := if fs.isDir output_dir = false then fs.makedirs output_dir else fs
    if pdf2imageInstalled = false then
      (.error (.runtimeError "pdf2image is not installed"), fs1)
    else
      match fs1.lookupFile pdf_path with
      | some (.pdf pages) =>
        let (fs2, counter) := savePagesLoop fs1 output_dir pages 1
        (.ok (counter - 1), fs2)
      | _ => (.error (.runtimeError ("Unable to get page count: " ++ pathStr pdf_path)), fs1)

/-- Observation: `p` names an existing file whose bytes Pillow decodes as an
image. -/
def FS.isImageFile (fs : FS) (p : Path) : Bool :=
  match fs.lookupFile p with
  | some (.image _) => true
  | _ => false

/-- Observation: the decoded image at `p` (meaningful when `isImageFile`). -/
def FS.imageAt (fs : FS) (p : Path) : PILImage :=
  match fs.lookupFile p with
  | some (.image im) => im
  | _ => default

/-- The big-endian decimal value of a digit list (inverse of `toDigitsRev`
on its image). -/
def fromDigitsRev : List Nat → Nat
  | [] => 0
  | d :: ds => d + 10 * fromDigitsRev ds

/-- Sample 1×1 opaque RGB image. -/
def imA : PILImage :=
  { mode := "RGB", width := 1, height := 1, transparencyInfo := false,
    data := [⟨10, 20, 30, 255⟩] }

/-- Second sample 1×1 opaque RGB image. -/
def imB : PILImage :=
  { mode := "RGB", width := 1, height := 1, transparencyInfo := false,
    data := [⟨40, 50, 60, 255⟩] }

/-- Sample directory `d` holding two decodable images (listed unsorted). -/
def fsDemo : FS :=
  { files := [(["d", "b.png"], .image imB), (["d", "a.png"], .image imA)],
    dirs := [["d"]] }

/-- Sample 1×1 `LA` image whose only pixel is fully transparent black. -/
def laTransparent : PILImage :=
  { mode := "LA", width := 1, height := 1, transparencyInfo := false,
    data := [⟨0, 0, 0, 0⟩] }

/-- Sample 1×1 `RGBA` image whose only pixel is fully transparent black. -/
def rgbaTransparent : PILImage :=
  { mode := "RGBA", width := 1, height := 1, transparencyInfo := false,
    data := [⟨0, 0, 0, 0⟩] }

/-- Sample filesystem holding a two-page PDF at `x.pdf`. -/
def fsPdfDemo : FS :=
  { files := [(["x.pdf"], .pdf [imA, imB])], dirs := [] }

/-- Sample directory `imgs` whose only entry is a subdirectory named
`a.png`. -/
def fsSubdirDemo : FS :=
  { files := [], dirs := [["imgs"], ["imgs", "a.png"]] }

/-- Sample directory `d` holding one image named `A.PNG` (uppercase). -/
def fsUpperDemo : FS :=
  { files := [(["d", "A.PNG"], .image imA)], dirs := [["d"]] }

/-- Sample directory `d` holding a file with matching name but undecodable
bytes. -/
def fsRawDemo : FS :=
  { files := [(["d", "a.png"], .raw)], dirs := [["d"]] }

/-- Sample empty directory `d`. -/
def fsEmptyDemo : FS :=
  { files := [], dirs := [["d"]] }

/-! ### Basic filesystem lemmas -/

theorem FS.lookupFile_writeFile_self (fs : FS) (p : Path) (c : Content) :
    (fs.writeFile p c).lookupFile p = some c := by
  simp [FS.writeFile, FS.lookupFile, List.lookup]

theorem FS.lookupFile_writeFile_ne (fs : FS) (p q : Path) (c : Content)
    (h : q ≠ p) : (fs.writeFile p c).lookupFile q = fs.lookupFile q := by
  have hb : (q == p) = false := beq_eq_false_iff_ne.mpr h
  simp [FS.writeFile, FS.lookupFile, List.lookup, hb]

theorem FS.lookupFile_makedirs (fs : FS) (p q : Path) :
    (fs.makedirs p).lookupFile q = fs.lookupFile q := rfl

/-! ### Decoding lemmas -/

theorem FS.openImage_of_isImageFile (fs : FS) (p : Path)
    (h : fs.isImageFile p = true) :
    fs.openImage p = .ok (fs.imageAt p) := by
  unfold FS.isImageFile at h
  unfold FS.openImage FS.imageAt
  cases hl : fs.lookupFile p with
  | none => rw [hl] at h; exact absurd h (by simp)
  | some c =>
    rw [hl] at h
    cases c with
    | image im => rfl
    | pdf pages => exact absurd h (by simp)
    | raw => exact absurd h (by simp)

theorem loadImages_of_isImageFile (fs : FS) :
    ∀ ps : List Path, (∀ p ∈ ps, fs.isImageFile p = true) →
      loadImages fs ps = .ok (ps.map (fun p => normalizeImage (fs.imageAt p)))
  | [], _ => rfl
  | p :: rest, h => by
    have hp := h p (by simp)
    have hrest := loadImages_of_isImageFile fs rest (fun q hq => h q (by simp [hq]))
    simp only [loadImages, FS.openImage_of_isImageFile fs p hp, hrest, List.map,
      Except.bind, bind, pure, Except.pure]

/-! ### The ordering used by `files.sort()` -/

theorem charListLt_asymm :
    ∀ l₁ l₂, charListLt l₁ l₂ = true → charListLt l₂ l₁ = false
  | l₁, [], h => by simp [charListLt] at h
  | [], _ :: _, _ => by simp [charListLt]
  | a :: as, b :: bs, h => by
    simp only [charListLt] at h ⊢
    by_cases hab : a.toNat < b.toNat
    · rw [if_neg (by omega), if_pos (by omega)]
    · rw [if_neg hab] at h
      by_cases hba : b.toNat < a.toNat
      · rw [if_pos hba] at h
        exact absurd h (by simp)
      · rw [if_neg hba] at h
        rw [if_neg hba, if_neg hab]
        exact charListLt_asymm as bs h

theorem charListLt_trans :
    ∀ l₁ l₂ l₃, charListLt l₁ l₂ = true → charListLt l₂ l₃ = true →
      charListLt l₁ l₃ = true
  | _, l₂, [], _, h₂ => by simp [charListLt] at h₂
  | l₁, [], _ :: _, h₁, _ => by simp [charListLt] at h₁
  | [], _ :: _, _ :: _, _, _ => by simp [charListLt]
  | a :: as, b :: bs, c :: cs, h₁, h₂ => by
    simp only [charListLt] at h₁ h₂ ⊢
    by_cases hab : a.toNat < b.toNat
    · by_cases hbc : b.toNat < c.toNat
      · rw [if_pos (by omega)]
      · rw [if_neg hbc] at h₂
        by_cases hcb : c.toNat < b.toNat
        · rw [if_pos hcb] at h₂
          exact absurd h₂ (by simp)
        · rw [if_pos (by omega)]
    · rw [if_neg hab] at h₁
      by_cases hba : b.toNat < a.toNat
      · rw [if_pos hba] at h₁
        exact absurd h₁ (by simp)
      · rw [if_neg hba] at h₁
        by_cases hbc : b.toNat < c.toNat
        · rw [if_pos (by omega)]
        · rw [if_neg hbc] at h₂
          by_cases hcb : c.toNat < b.toNat
          · rw [if_pos hcb] at h₂
            exact absurd h₂ (by simp)
          · rw [if_neg hcb] at h₂
            rw [if_neg (by omega), if_neg (by omega)]
            exact charListLt_trans as bs cs h₁ h₂

theorem charListLt_conn :
    ∀ l₁ l₂, charListLt l₁ l₂ = false → charListLt l₂ l₁ = false → l₁ = l₂
  | [], [], _, _ => rfl
  | [], _ :: _, h₁, _ => by simp [charListLt] at h₁
  | _ :: _, [], _, h₂ => by simp [charListLt] at h₂
  | a :: as, b :: bs, h₁, h₂ => by
    simp only [charListLt] at h₁ h₂
    by_cases hab : a.toNat < b.toNat
    · rw [if_pos hab] at h₁
      exact absurd h₁ (by simp)
    · rw [if_neg hab] at h₁
      by_cases hba : b.toNat < a.toNat
      · rw [if_pos hba] at h₂
        exact absurd h₂ (by simp)
      · rw [if_neg hba] at h₁
        rw [if_neg hba, if_neg hab] at h₂
        have hab2 : a = b := by
          have hn : a.toNat = b.toNat := by omega
          calc a = Char.ofNat a.toNat := (Char.ofNat_toNat a).symm
            _ = Char.ofNat b.toNat := by rw [hn]
            _ = b := Char.ofNat_toNat b
        rw [hab2, charListLt_conn as bs h₁ h₂]

theorem pyStrLt_asymm (s t : String) (h : pyStrLt s t = true) :
    pyStrLt t s = false :=
  charListLt_asymm s.data t.data h

theorem pyStrLt_trans (s t u : String) (h₁ : pyStrLt s t = true)
    (h₂ : pyStrLt t u = true) : pyStrLt s u = true :=
  charListLt_trans s.data t.data u.data h₁ h₂

theorem pyStrLt_conn (s t : String) (h₁ : pyStrLt s t = false)
    (h₂ : pyStrLt t s = false) : s = t := by
  cases s with
  | mk ds =>
    cases t with
    | mk dt => exact congrArg String.mk (charListLt_conn ds dt h₁ h₂)

instance : IsTotal String pyLe :=
  ⟨fun a b => by
    by_cases h : pyStrLt b a = true
    · exact Or.inr (pyStrLt_asymm b a h)
    · exact Or.inl (by simpa using h)⟩

instance : IsTrans String pyLe :=
  ⟨fun a b c h₁ h₂ => by
    have h₁' : pyStrLt b a = false := h₁
    have h₂' : pyStrLt c b = false := h₂
    by_contra hlt
    have hca : pyStrLt c a = true := by
      cases h : pyStrLt c a
      · exact absurd h hlt
      · rfl
    cases hbc : pyStrLt b c with
    | true =>
      have hba : pyStrLt b a = true := pyStrLt_trans b c a hbc hca
      rw [h₁'] at hba
      exact Bool.noConfusion hba
    | false =>
      have hbceq : c = b := pyStrLt_conn c b h₂' hbc
      rw [hbceq, h₁'] at hca
      exact Bool.noConfusion hca⟩

theorem sortFiles_perm (files : List String) : (sortFiles files).Perm files :=
  List.perm_insertionSort pyLe files

theorem sortFiles_sorted (files : List String) :
    List.Sorted pyLe (sortFiles files) :=
  List.sorted_insertionSort pyLe files

theorem sortFiles_eq_nil_iff (files : List String) :
    sortFiles files = [] ↔ files = [] := by
  constructor
  · intro h
    have := (sortFiles_perm files).length_eq
    rw [h] at this
    exact List.length_eq_zero.mp this.symm
  · intro h
    rw [h]
    rfl

/-! ### Decimal page names are injective -/

theorem fromDigitsRev_toDigitsRevAux :
    ∀ fuel n, n < fuel → fromDigitsRev (toDigitsRevAux n fuel) = n := by
  intro fuel
  induction fuel with
  | zero => intro n hn; omega
  | succ fuel ih =>
    intro n hn
    by_cases h : n < 10
    · simp [toDigitsRevAux, h, fromDigitsRev]
    · have hdiv : n / 10 < n := Nat.div_lt_self (by omega) (by omega)
      simp only [toDigitsRevAux, if_neg h, fromDigitsRev]
      rw [ih (n / 10) (by omega)]
      omega

theorem fromDigitsRev_toDigitsRev (n : Nat) :
    fromDigitsRev (toDigitsRev n) = n :=
  fromDigitsRev_toDigitsRevAux (n + 1) n (Nat.lt_succ_self n)

theorem toDigitsRev_inj {m n : Nat} (h : toDigitsRev m = toDigitsRev n) :
    m = n := by
  have := congrArg fromDigitsRev h
  rwa [fromDigitsRev_toDigitsRev, fromDigitsRev_toDigitsRev] at this

theorem toDigitsRevAux_lt_ten :
    ∀ fuel n, ∀ d ∈ toDigitsRevAux n fuel, d < 10 := by
  intro fuel
  induction fuel with
  | zero => intro n d hd; simp [toDigitsRevAux] at hd
  | succ fuel ih =>
    intro n d hd
    by_cases h : n < 10
    · simp [toDigitsRevAux, h] at hd
      omega
    · simp only [toDigitsRevAux, if_neg h, List.mem_cons] at hd
      rcases hd with hd | hd
      · omega
      · exact ih (n / 10) d hd

theorem toDigitsRev_lt_ten (n : Nat) : ∀ d ∈ toDigitsRev n, d < 10 :=
  toDigitsRevAux_lt_ten (n + 1) n

theorem charOfDigit_inj {d₁ d₂ : Nat} (h₁ : d₁ < 10) (h₂ : d₂ < 10)
    (h : charOfDigit d₁ = charOfDigit d₂) : d₁ = d₂ := by
  interval_cases d₁ <;> interval_cases d₂ <;>
    first
      | rfl
      | exact absurd h (by decide)

theorem map_charOfDigit_inj :
    ∀ l₁ l₂ : List Nat, (∀ d ∈ l₁, d < 10) → (∀ d ∈ l₂, d < 10) →
      l₁.map charOfDigit = l₂.map charOfDigit → l₁ = l₂
  | [], [], _, _, _ => rfl
  | [], _ :: _, _, _, h => by simp at h
  | _ :: _, [], _, _, h => by simp at h
  | a :: as, b :: bs, hl₁, hl₂, h => by
    simp only [List.map, List.cons.injEq] at h
    rw [charOfDigit_inj (hl₁ a (by simp)) (hl₂ b (by simp)) h.1,
      map_charOfDigit_inj as bs (fun d hd => hl₁ d (by simp [hd]))
        (fun d hd => hl₂ d (by simp [hd])) h.2]

theorem decimalStr_inj {m n : Nat} (h : decimalStr m = decimalStr n) :
    m = n := by
  unfold decimalStr at h
  have hdata := congrArg String.data h
  simp only at hdata
  have hrev := map_charOfDigit_inj (toDigitsRev m).reverse (toDigitsRev n).reverse
    (fun d hd => toDigitsRev_lt_ten m d (List.mem_reverse.mp hd))
    (fun d hd => toDigitsRev_lt_ten n d (List.mem_reverse.mp hd)) hdata
  exact toDigitsRev_inj (List.reverse_injective hrev)

theorem pageName_inj {m n : Nat} (h : pageName m = pageName n) : m = n := by
  unfold pageName at h
  have hdata := congrArg String.data h
  simp only [String.data_append] at hdata
  have := List.append_cancel_right hdata
  have := List.append_cancel_left this
  exact decimalStr_inj (congrArg String.mk this)

theorem pagePath_inj {d : Path} {m n : Nat}
    (h : d ++ [pageName m] = d ++ [pageName n]) : m = n := by
  have := List.append_cancel_left h
  simp only [List.cons.injEq, and_true] at this
  exact pageName_inj this

/-! ### The page-saving loop of `convert_pdf_to_images` -/

theorem savePagesLoop_counter (d : Path) :
    ∀ (pages : List PILImage) (fs : FS) (c : Nat),
      (savePagesLoop fs d pages c).2 = c + pages.length
  | [], _, _ => by simp [savePagesLoop]
  | _ :: rest, fs, c => by
    simp only [savePagesLoop, List.length_cons]
    rw [savePagesLoop_counter d rest _ (c + 1)]
    omega

theorem savePagesLoop_frame (d : Path) :
    ∀ (pages : List PILImage) (fs : FS) (c : Nat) (q : Path),
      (∀ i, i < pages.length → q ≠ d ++ [pageName (c + i)]) →
      ((savePagesLoop fs d pages c).1).lookupFile q = fs.lookupFile q
  | [], _, _, _, _ => rfl
  | page :: rest, fs, c, q, h => by
    simp only [savePagesLoop]
    rw [savePagesLoop_frame d rest _ (c + 1) q
      (fun i hi => by
        have := h (i + 1) (by simp; omega)
        rwa [show c + (i + 1) = c + 1 + i by omega] at this)]
    exact FS.lookupFile_writeFile_ne fs _ q _
      (by simpa using h 0 (by simp))

theorem savePagesLoop_hit (d : Path) :
    ∀ (pages : List PILImage) (fs : FS) (c : Nat) (i : Nat)
      (hi : i < pages.length),
      ((savePagesLoop fs d pages c).1).lookupFile (d ++ [pageName (c + i)]) =
        some (.image (pages.get ⟨i, hi⟩))
  | [], _, _, _, hi => by simp at hi
  | page :: rest, fs, c, 0, _ => by
    simp only [savePagesLoop, List.get]
    rw [savePagesLoop_frame d rest _ (c + 1) _
      (fun j hj heq => by
        have := pagePath_inj ((by simpa using heq) :
          d ++ [pageName (c + 0)] = d ++ [pageName (c + 1 + j)])
        omega)]
    simpa using FS.lookupFile_writeFile_self fs (d ++ [pageName c]) (.image page)
  | page :: rest, fs, c, i + 1, hi => by
    simp only [savePagesLoop, List.get]
    rw [show c + (i + 1) = c + 1 + i by omega]
    exact savePagesLoop_hit d rest _ (c + 1) i (by simpa using Nat.lt_of_succ_lt_succ hi)

/-! ### Case mapping is idempotent (filename side of the suffix match) -/

theorem charLower_idem (c : Char) : charLower (charLower c) = charLower c := by
  unfold charLower
  by_cases h : 65 ≤ c.toNat ∧ c.toNat ≤ 90
  · rw [if_pos h]
    have hv : (Char.ofNat (c.toNat + 32)).toNat = c.toNat + 32 := by
      obtain ⟨h₁, h₂⟩ := h
      generalize c.toNat = n at h₁ h₂
      interval_cases n <;> decide
    rw [if_neg (by omega)]
  · rw [if_neg h, if_neg h]

theorem lowerStr_idem (s : String) : lowerStr (lowerStr s) = lowerStr s := by
  unfold lowerStr
  simp only [List.map_map]
  exact congrArg String.mk (List.map_congr_left (fun c _ => charLower_idem c))

theorem matchesExt_lowerStr (f : String) (exts : List String) :
    matchesExt (lowerStr f) exts = matchesExt f exts := by
  unfold matchesExt
  rw [lowerStr_idem]

/-! ### Claim theorems -/

/-- C2: for every non-empty ordered list of valid image file paths,
file-list-mode combination returns the output path and writes an output PDF
whose page sequence is the normalised images in exactly the order of the
supplied list (no re-sorting), one page per input. -/
theorem images_to_pdf_from_files_spec (fs : FS) (ps : List Path) (out : Path)
    (hne : ps ≠ [])
    (himg : ∀ p ∈ ps, fs.isImageFile p = true) :
    images_to_pdf_from_files ps out fs =
      (Except.ok out, (prepareOutput fs out).writeFile out
        (Content.pdf (ps.map (fun p => normalizeImage (fs.imageAt p))))) ∧
    (ps.map (fun p => normalizeImage (fs.imageAt p))).length = ps.length := by
  have hload := loadImages_of_isImageFile fs ps himg
  refine ⟨?_, by simp⟩
  unfold images_to_pdf_from_files
  rw [if_neg hne, hload]
  cases ps with
  | nil => exact absurd rfl hne
  | cons p rest => simp [saveAsPdf]

/-- C2 witness: the theorem applied to a concrete two-element file list. -/
theorem images_to_pdf_from_files_spec_witness :
    images_to_pdf_from_files [["d", "b.png"], ["d", "a.png"]] ["out.pdf"] fsDemo =
      (Except.ok ["out.pdf"], (prepareOutput fsDemo ["out.pdf"]).writeFile ["out.pdf"]
        (Content.pdf ([["d", "b.png"], ["d", "a.png"]].map
          (fun p => normalizeImage (fsDemo.imageAt p))))) ∧
    ([["d", "b.png"], ["d", "a.png"]].map
      (fun p => normalizeImage (fsDemo.imageAt p))).length =
      [["d", "b.png"], ["d", "a.png"]].length :=
  images_to_pdf_from_files_spec fsDemo [["d", "b.png"], ["d", "a.png"]] ["out.pdf"]
    (by decide) (by decide)

/-- C6: with zero matching inputs — a directory whose selection is empty, or
an empty file list — both combiners raise a NotFound-class error and leave
the filesystem unchanged (no output file, no created directory). -/
theorem combiners_empty_selection_spec (fs : FS) (dir out : Path)
    (exts : List String)
    (hdir : fs.isDir dir = true)
    (hsel : selectFiles fs dir exts = []) :
    images_to_pdf dir out exts fs =
      (Except.error (PyError.fileNotFound ("No images found in " ++ pathStr dir ++
        " with extensions " ++ String.intercalate ", " exts)), fs) ∧
    images_to_pdf_from_files [] out fs =
      (Except.error (PyError.fileNotFound "No image files provided"), fs) := by
  constructor
  · simp [images_to_pdf, hdir, hsel]
  · rfl

/-- C6 witness: the theorem applied to a concrete empty directory. -/
theorem combiners_empty_selection_spec_witness :
    images_to_pdf ["d"] ["out.pdf"] [".png"] fsEmptyDemo =
      (Except.error (PyError.fileNotFound ("No images found in " ++ pathStr ["d"] ++
        " with extensions " ++ String.intercalate ", " [".png"])), fsEmptyDemo) ∧
    images_to_pdf_from_files [] ["out.pdf"] fsEmptyDemo =
      (Except.error (PyError.fileNotFound "No image files provided"), fsEmptyDemo) :=
  combiners_empty_selection_spec fsEmptyDemo ["d"] ["out.pdf"] [".png"]
    (by decide) (by decide)

/-- C7: on a PDF path that names no existing file, `convert_pdf_to_images`
raises a NotFound-class error and returns with the filesystem unchanged — in
particular the output directory has not been created and nothing has been
written. -/
theorem convert_pdf_missing_spec (fs : FS) (pdf output_dir : Path)
    (poppler : Option Path) (installed : Bool)
    (h : fs.isFile pdf = false) :
    convert_pdf_to_images pdf poppler output_dir installed fs =
      (Except.error (PyError.fileNotFound ("PDF not found: " ++ pathStr pdf)), fs) := by
  simp [convert_pdf_to_images, h]

/-- C7 witness: the theorem applied to a concrete missing PDF path. -/
theorem convert_pdf_missing_spec_witness :
    convert_pdf_to_images ["x.pdf"] none ["o"] true fsEmptyDemo =
      (Except.error (PyError.fileNotFound ("PDF not found: " ++ pathStr ["x.pdf"])),
        fsEmptyDemo) :=
  convert_pdf_missing_spec fsEmptyDemo ["x.pdf"] ["o"] none true (by decide)

/-- C9: in both combiners every input is decoded before any filesystem write:
if the decode loop fails, the call returns that error with the filesystem
unchanged — no output file and no newly created directory. -/
theorem combiners_decode_failure_spec (fs : FS) (dir out : Path)
    (exts : List String) (ps : List Path) (e e' : PyError)
    (hdir : fs.isDir dir = true)
    (hne : selectFiles fs dir exts ≠ [])
    (hload : loadImages fs
      ((sortFiles (selectFiles fs dir exts)).map (fun f => dir ++ [f])) =
      .error e)
    (hne2 : ps ≠ [])
    (hload2 : loadImages fs ps = .error e') :
    images_to_pdf dir out exts fs = (.error e, fs) ∧
    images_to_pdf_from_files ps out fs = (.error e', fs) := by
  constructor
  · simp [images_to_pdf, hdir, hne, hload]
  · simp [images_to_pdf_from_files, hne2, hload2]

/-- C9 witness: the theorem applied to a directory whose single matching file
has undecodable bytes. -/
theorem combiners_decode_failure_spec_witness :
    images_to_pdf ["d"] ["out.pdf"] [".png"] fsRawDemo =
      (.error (.unidentifiedImage "cannot identify image file d/a.png"), fsRawDemo) ∧
    images_to_pdf_from_files [["d", "a.png"]] ["out.pdf"] fsRawDemo =
      (.error (.unidentifiedImage "cannot identify image file d/a.png"), fsRawDemo) :=
  combiners_decode_failure_spec fsRawDemo ["d"] ["out.pdf"] [".png"] [["d", "a.png"]]
    (.unidentifiedImage "cannot identify image file d/a.png")
    (.unidentifiedImage "cannot identify image file d/a.png")
    (by decide) (by decide) (by decide) (by decide) (by decide)

/-- C1: for a directory with a non-empty selection of entries matching the
accepted extensions, all decodable as images, directory-mode combination
returns the output path and writes an output PDF whose page sequence is the
normalised images of exactly the selected entries in ascending plain string
order of filename; the sorted list is a permutation of the selection (exactly
those N entries), it is sorted by Python's string comparison, and the page
count equals the selection count. -/
theorem images_to_pdf_dir_spec (fs : FS) (dir out : Path) (exts : List String)
    (hdir : fs.isDir dir = true)
    (hne : selectFiles fs dir exts ≠ [])
    (himg : ∀ f ∈ selectFiles fs dir exts, fs.isImageFile (dir ++ [f]) = true) :
    images_to_pdf dir out exts fs =
      (Except.ok out, (prepareOutput fs out).writeFile out
        (Content.pdf ((sortFiles (selectFiles fs dir exts)).map
          (fun f => normalizeImage (fs.imageAt (dir ++ [f])))))) ∧
    (sortFiles (selectFiles fs dir exts)).Perm (selectFiles fs dir exts) ∧
    List.Sorted pyLe (sortFiles (selectFiles fs dir exts)) ∧
    ((sortFiles (selectFiles fs dir exts)).map
      (fun f => normalizeImage (fs.imageAt (dir ++ [f])))).length =
      (selectFiles fs dir exts).length := by
  refine ⟨?_, sortFiles_perm _, sortFiles_sorted _, ?_⟩
  · have himg2 : ∀ p ∈ (sortFiles (selectFiles fs dir exts)).map
        (fun f => dir ++ [f]), fs.isImageFile p = true := by
      intro p hp
      simp only [List.mem_map] at hp
      obtain ⟨f, hf, rfl⟩ := hp
      exact himg f ((sortFiles_perm _).mem_iff.mp hf)
    have hload := loadImages_of_isImageFile fs _ himg2
    have hsne : sortFiles (selectFiles fs dir exts) ≠ [] :=
      fun h => hne ((sortFiles_eq_nil_iff _).mp h)
    simp only [images_to_pdf, hdir]
    rw [if_neg (by simp), if_neg hne, hload]
    rw [List.map_map]
    cases hs : sortFiles (selectFiles fs dir exts) with
    | nil => exact absurd hs hsne
    | cons a rest => simp [saveAsPdf, Function.comp_def]
  · rw [List.length_map]
    exact (sortFiles_perm _).length_eq

/-- C1 witness: the theorem applied to a concrete directory with two images
listed out of order. -/
theorem images_to_pdf_dir_spec_witness :
    images_to_pdf ["d"] ["out.pdf"] [".png"] fsDemo =
      (Except.ok ["out.pdf"], (prepareOutput fsDemo ["out.pdf"]).writeFile ["out.pdf"]
        (Content.pdf ((sortFiles (selectFiles fsDemo ["d"] [".png"])).map
          (fun f => normalizeImage (fsDemo.imageAt (["d"] ++ [f])))))) ∧
    (sortFiles (selectFiles fsDemo ["d"] [".png"])).Perm
      (selectFiles fsDemo ["d"] [".png"]) ∧
    List.Sorted pyLe (sortFiles (selectFiles fsDemo ["d"] [".png"])) ∧
    ((sortFiles (selectFiles fsDemo ["d"] [".png"])).map
      (fun f => normalizeImage (fsDemo.imageAt (["d"] ++ [f])))).length =
      (selectFiles fsDemo ["d"] [".png"]).length :=
  images_to_pdf_dir_spec fsDemo ["d"] ["out.pdf"] [".png"]
    (by decide) (by decide) (by decide)

/-- C5: on any directory that exists and yields a non-empty selection,
directory-mode combination is extensionally equal — same returned value or
raised error, and same final filesystem, hence same output PDF content — to
file-list-mode combination applied to the lexically sorted full paths of the
selected entries. -/
theorem images_to_pdf_refines_from_files (fs : FS) (dir out : Path)
    (exts : List String)
    (hdir : fs.isDir dir = true)
    (hne : selectFiles fs dir exts ≠ []) :
    images_to_pdf dir out exts fs =
      images_to_pdf_from_files
        ((sortFiles (selectFiles fs dir exts)).map (fun f => dir ++ [f])) out fs := by
  have hsne : (sortFiles (selectFiles fs dir exts)).map (fun f => dir ++ [f]) ≠ [] := by
    simp only [ne_eq, List.map_eq_nil_iff, sortFiles_eq_nil_iff]
    exact hne
  simp only [images_to_pdf, images_to_pdf_from_files, hdir]
  rw [if_neg (by simp), if_neg hne, if_neg hsne]

/-- C5 witness: the theorem applied to a concrete directory with two
images. -/
theorem images_to_pdf_refines_from_files_witness :
    images_to_pdf ["d"] ["out.pdf"] [".png"] fsDemo =
      images_to_pdf_from_files
        ((sortFiles (selectFiles fsDemo ["d"] [".png"])).map (fun f => ["d"] ++ [f]))
        ["out.pdf"] fsDemo :=
  images_to_pdf_refines_from_files fsDemo ["d"] ["out.pdf"] [".png"]
    (by decide) (by decide)

/-- C4: on an existing PDF of K pages (with the rasterizer importable),
`convert_pdf_to_images` returns K, stores page i (1-indexed, decimal name
`page_i.png`, no zero-padding) at `output_dir/page_i.png` — overwriting any
previous file of that name, since the lookup result holds for every starting
filesystem — and changes no other file. -/
theorem convert_pdf_to_images_spec (fs : FS) (pdf output_dir : Path)
    (poppler : Option Path) (pages : List PILImage)
    (hpdf : fs.lookupFile pdf = some (Content.pdf pages)) :
    (convert_pdf_to_images pdf poppler output_dir true fs).1 =
      Except.ok pages.length ∧
    (∀ i (hi : i < pages.length),
      (convert_pdf_to_images pdf poppler output_dir true fs).2.lookupFile
        (output_dir ++ [pageName (i + 1)]) =
        some (Content.image (pages.get ⟨i, hi⟩))) ∧
    (∀ q : Path, (∀ i, i < pages.length → q ≠ output_dir ++ [pageName (i + 1)]) →
      (convert_pdf_to_images pdf poppler output_dir true fs).2.lookupFile q =
        fs.lookupFile q) := by
  have hfile : fs.isFile pdf = true := by simp [FS.isFile, hpdf]
  have hlk : ∀ q, (if fs.isDir output_dir = false then fs.makedirs output_dir
      else fs).lookupFile q = fs.lookupFile q := by
    intro q
    split
    · exact FS.lookupFile_makedirs fs output_dir q
    · rfl
  have hrun : convert_pdf_to_images pdf poppler output_dir true fs =
      (Except.ok ((savePagesLoop (if fs.isDir output_dir = false
          then fs.makedirs output_dir else fs) output_dir pages 1).2 - 1),
        (savePagesLoop (if fs.isDir output_dir = false
          then fs.makedirs output_dir else fs) output_dir pages 1).1) := by
    simp only [convert_pdf_to_images, hfile]
    rw [if_neg (by simp), if_neg (by simp), (hlk pdf).trans hpdf]
  refine ⟨?_, ?_, ?_⟩
  · rw [hrun]
    simp only [savePagesLoop_counter]
    congr 1
    omega
  · intro i hi
    rw [hrun]
    have := savePagesLoop_hit output_dir pages
      (if fs.isDir output_dir = false then fs.makedirs output_dir else fs) 1 i hi
    rwa [show (1 : Nat) + i = i + 1 by omega] at this
  · intro q hq
    rw [hrun]
    rw [savePagesLoop_frame output_dir pages _ 1 q
      (fun i hi => by
        have := hq i hi
        rwa [show i + 1 = 1 + i by omega] at this)]
    exact hlk q

/-- C4 witness: the theorem applied to a concrete two-page PDF. -/
theorem convert_pdf_to_images_spec_witness :
    (convert_pdf_to_images ["x.pdf"] none ["o"] true fsPdfDemo).1 =
      Except.ok [imA, imB].length ∧
    (∀ i (hi : i < [imA, imB].length),
      (convert_pdf_to_images ["x.pdf"] none ["o"] true fsPdfDemo).2.lookupFile
        (["o"] ++ [pageName (i + 1)]) =
        some (Content.image ([imA, imB].get ⟨i, hi⟩))) ∧
    (∀ q : Path, (∀ i, i < [imA, imB].length → q ≠ ["o"] ++ [pageName (i + 1)]) →
      (convert_pdf_to_images ["x.pdf"] none ["o"] true fsPdfDemo).2.lookupFile q =
        fsPdfDemo.lookupFile q) :=
  convert_pdf_to_images_spec fsPdfDemo ["x.pdf"] ["o"] none [imA, imB] (by decide)

/-- C3 (code evaluated at the failing input): normalisation does make every
output page opaque three-channel (mode `RGB`, alpha 255 everywhere), and an
`RGBA` image is composited over white (the fully transparent black pixel
becomes white); but an `LA` image with a fully transparent black pixel is
pasted without its alpha mask, so the pixel stays black instead of becoming
white — the claim's "formerly transparent regions showing white" fails for
the `LA`/palette branch. -/
theorem normalizeImage_la_eval :
    (normalizeImage laTransparent).mode = "RGB" ∧
    (normalizeImage laTransparent).data = [⟨0, 0, 0, 255⟩] ∧
    (normalizeImage laTransparent).data ≠ [⟨255, 255, 255, 255⟩] ∧
    (normalizeImage rgbaTransparent).mode = "RGB" ∧
    (normalizeImage rgbaTransparent).data = [⟨255, 255, 255, 255⟩] := by decide

/-- C8 counterexample: the directory holds one entry `A.PNG`, which matches
`.PNG` under a genuinely case-insensitive comparison of both sides (it even
matches verbatim), yet with the accepted extension supplied as `.PNG` the
selection is empty — only the filename is lowercased, the extension is
compared verbatim — so the call fails with NotFound instead of selecting the
entry. -/
theorem selectFiles_ext_case_counterexample :
    fsUpperDemo.listdir ["d"] = ["A.PNG"] ∧
    matchesExt "A.PNG" [".png"] = true ∧
    matchesExt "A.PNG" [".PNG"] = false ∧
    selectFiles fsUpperDemo ["d"] [".PNG"] = [] ∧
    images_to_pdf ["d"] ["out.pdf"] [".PNG"] fsUpperDemo =
      (Except.error (PyError.fileNotFound
        "No images found in d with extensions .PNG"), fsUpperDemo) := by decide

/-- C8 (amended): directory-mode selection picks exactly the entries whose
lowercased name ends with one of the supplied extension strings taken
verbatim; the match is case-insensitive in the filename (lowercasing the
filename never changes the outcome), but an extension containing uppercase is
compared literally and so never matches (concretely, `.PNG` matches no
file). -/
theorem selectFiles_amended_spec (fs : FS) (dir : Path) (exts : List String)
    (f : String) :
    (f ∈ selectFiles fs dir exts ↔
      f ∈ fs.listdir dir ∧ ∃ e ∈ exts, strEndsWith (lowerStr f) e = true) ∧
    matchesExt (lowerStr f) exts = matchesExt f exts ∧
    matchesExt "photo.PNG" [".PNG"] = false := by
  refine ⟨?_, matchesExt_lowerStr f exts, by decide⟩
  simp [selectFiles, matchesExt, List.mem_filter, List.any_eq_true]

/-- C10: selection matches directory entries by name only, without checking
that the entry is a regular file: in a directory whose only entry is a
subdirectory named `a.png`, that entry is selected, and the call fails at the
decode step with an IsADirectory error, which is not of the NotFound class;
the filesystem is left unchanged. -/
theorem selectFiles_subdir_spec :
    selectFiles fsSubdirDemo ["imgs"] [".png"] = ["a.png"] ∧
    images_to_pdf ["imgs"] ["out.pdf"] [".png"] fsSubdirDemo =
      (Except.error (PyError.isADirectory "Is a directory: imgs/a.png"),
        fsSubdirDemo) ∧
    (PyError.isADirectory "Is a directory: imgs/a.png").notFoundClass = false := by
  decide

end ConverterApp
